import Mathlib

/-!
Verification of the speech2text audio recorder (src/ses/audio_recorder.cpp)
against its natural-language specification.

The C++ program is embedded shallowly: the recorder's mutable members and
the three output files it overwrites are a `RecorderState`; each method
becomes a state-passing function; the external Vosk recognizer and the
`parec` byte stream are oracles supplied per loop iteration (`ReadEvent`).
Machine integers are modelled with `Nat`/`Int`; the one floating-point
computation (`calculateAudioLevel`) is modelled by the exact integer
formula it agrees with on its whole defined domain (see its doc comment).
-/

namespace AudioRecorder

/-- The recorder's observable state: the mutable members of class
`AudioRecorder` (`running`, `audioData`, `accumulatedText`), the locals of
`record` that persist across loop iterations (`chunkBuffer`, `totalBytes`,
`updateCounter`), and the contents of the three files the program
overwrites via `writeToFile`. -/
structure RecorderState where
  running : Bool
  audioData : List Int
  chunkBuffer : List Int
  accumulatedText : List Char
  outputTextFile : List Char
  audioLevelFile : List Char
  modelConfigFile : List Char
  totalBytes : Nat
  updateCounter : Nat
deriving DecidableEq

/-- `OUTPUT_TEXT_FILE` constant (line 20). -/
def OUTPUT_TEXT_FILE : String := "recognized_text.txt"

/-- `AUDIO_LEVEL_FILE` constant (line 21). -/
def AUDIO_LEVEL_FILE : String := "audio_level.txt"

/-- `MODEL_CONFIG_FILE` constant (line 22). -/
def MODEL_CONFIG_FILE : String := "current_model.txt"

/-- `writeToFile` (lines 86-92): truncating overwrite of the named file.
The trailing newline `std::endl` appends on disk is uniform across all
writes and is elided; the slot holds the `content` argument. -/
def writeToFile (filename : String) (content : List Char) (s : RecorderState) : RecorderState :=
  if filename = OUTPUT_TEXT_FILE then { s with outputTextFile := content }
  else if filename = AUDIO_LEVEL_FILE then { s with audioLevelFile := content }
  else if filename = MODEL_CONFIG_FILE then { s with modelConfigFile := content }
  else s

/-- `writePartialText` (lines 94-97): publish the in-progress preview text;
no-op on empty text. (Renamed from the source's `writePartialText`.) -/
def writePartText (text : List Char) (s : RecorderState) : RecorderState :=
  if text = [] then s else writeToFile OUTPUT_TEXT_FILE text s

/-- `writeRecognizedText` (lines 99-107): no-op on empty text, else append
to `accumulatedText` (space-joined when non-empty) and overwrite the output
text file with the whole accumulated transcript. -/
def writeRecognizedText (text : List Char) (s : RecorderState) : RecorderState :=
  if text = [] then s
  else
    let acc := (if s.accumulatedText = [] then s.accumulatedText else s.accumulatedText ++ [' ']) ++ text
    writeToFile OUTPUT_TEXT_FILE acc { s with accumulatedText := acc }

/-- `writeAudioLevel` (lines 109-111): overwrite the level file with the
decimal rendering of the level. Every call site passes a non-negative
value, so the argument is a `Nat`. -/
def writeAudioLevel (level : Nat) (s : RecorderState) : RecorderState :=
  writeToFile AUDIO_LEVEL_FILE (Nat.repr level).toList s

/-- `clearFiles` (lines 80-84): reset `accumulatedText` to empty, the
output text file to empty, the level file to "0". -/
def clearFiles (s : RecorderState) : RecorderState :=
  writeToFile AUDIO_LEVEL_FILE ("0".toList)
    (writeToFile OUTPUT_TEXT_FILE [] { s with accumulatedText := [] })

/-- Helper for `std::string::find(pat, start)`: scan the suffixes of the
remaining characters, carrying the absolute index `i`. The source only
searches for non-empty patterns, for which this agrees with C++ `find`. -/
def findAux (pat : List Char) : List Char → Nat → Option Nat
  | [], _ => none
  | c :: rest, i => if pat.isPrefixOf (c :: rest) then some i else findAux pat rest (i + 1)

/-- `jsonStr.find(pat, start)`: first index `≥ start` at which `pat`
occurs, or `none` (C++ `npos`). -/
def findFrom (s : List Char) (pat : List Char) (start : Nat) : Option Nat :=
  findAux pat (s.drop start) start

/-- The six-character search key `"text"` (with its quotes) of line 137. -/
def textKey : List Char := "\"text\"".toList

/-- `extractTextFromJson` (lines 136-150): locate the first occurrence of
`"text"`, then the next `:`, then the next `"`, then the following `"`,
and return the characters strictly between the two quotes
(`substr(startQuote + 1, endQuote - startQuote - 1)`); any failed search
returns the empty string. -/
def extractTextFromJson (jsonStr : List Char) : List Char :=
  match findFrom jsonStr textKey 0 with
  | none => []
  | some textPos =>
    match findFrom jsonStr [':'] textPos with
    | none => []
    | some colonPos =>
      match findFrom jsonStr ['"'] colonPos with
      | none => []
      | some startQuote =>
        match findFrom jsonStr ['"'] (startQuote + 1) with
        | none => []
        | some endQuote => (jsonStr.drop (startQuote + 1)).take (endQuote - startQuote - 1)

/-- `calculateAudioLevel` (lines 152-163). The source computes
`(int)(((double)sum / sampleCount) / 3276.7)` and clamps at 10. The double
`3276.7` is the nearest double to 32767/10 and the truncated quotient
equals the exact `(10 * sum) / (32767 * N)` for every `sum ≤ 2^31 - 1`
(the `int32_t` accumulator's defined range): non-integer exact ratios are
at least `1/(32767·N)` from an integer while the rounding error is below
`5·10^-15`, and the ten exact-integer ratios all evaluate exactly. In the
program `sampleCount ≤ 160` (320-byte reads), so `sum ≤ 160·32768` and the
accumulator cannot overflow. -/
def calculateAudioLevel (samples : List Int) : Nat :=
  if samples.length = 0 then 0
  else
    let sum := (samples.map Int.natAbs).sum
    let level := 10 * sum / (32767 * samples.length)
    if level > 10 then 10 else level

/-- Reinterpretation of an even-length little-endian byte buffer as
`int16_t` samples (`(int16_t*)buffer` at line 281 on x86); a dangling
trailing byte yields no sample. -/
def toInt16 (lo hi : Nat) : Int :=
  let u := lo + 256 * hi
  if u < 32768 then (u : Int) else (u : Int) - 65536

/-- Pair up bytes little-endian into samples; an odd leftover byte is
dropped. -/
def bytesToSamples : List Nat → List Int
  | lo :: hi :: rest => toInt16 lo hi :: bytesToSamples rest
  | _ => []

/-- One `fread` outcome together with the external recognizer's responses
for that iteration: the partial-result payload, whether
`vosk_recognizer_accept_waveform` reports a finalized segment, and the
final-result payload. -/
structure ReadEvent where
  bytes : List Nat
  partPayload : List Char
  acceptFinalized : Bool
  resultPayload : List Char
deriving DecidableEq

/-- The recognizer operations one loop iteration can invoke. -/
inductive RecOp where
  | getPart : RecOp
  | accept : RecOp
  | getResult : RecOp
deriving DecidableEq

/-- The sequence of recognizer calls the `if (rec)` block (lines 298-315)
performs: `vosk_recognizer_partial_result`, then
`vosk_recognizer_accept_waveform`, then `vosk_recognizer_result` exactly
when accept reported a finalized segment. -/
def recStepOps (ev : ReadEvent) : List RecOp :=
  [RecOp.getPart, RecOp.accept] ++ (if ev.acceptFinalized then [RecOp.getResult] else [])

/-- State effect of the `if (rec)` block (lines 298-315): publish the
extracted partial text when non-empty; when accept finalized a segment,
publish the extracted final text when non-empty. -/
def recStep (ev : ReadEvent) (s : RecorderState) : RecorderState :=
  let partText := extractTextFromJson ev.partPayload
  let s1 := if partText ≠ [] then writePartText partText s else s
  if ev.acceptFinalized then
    let text := extractTextFromJson ev.resultPayload
    if text ≠ [] then writeRecognizedText text s1 else s1
  else s1

/-- One iteration of the `while (running)` loop body (lines 272-327) after
a read returning `ev.bytes`: truncate an odd byte count, accumulate
`totalBytes`, append the chunk's samples to `chunkBuffer` and `audioData`,
publish the loudness level every 2nd chunk, and run the recognizer block
when the recognizer exists. The periodic status print (lines 318-326) has
no state effect. -/
def recordIteration (recEnabled : Bool) (ev : ReadEvent) (s : RecorderState) : RecorderState :=
  let bytesRead0 := ev.bytes.length
  let bytesRead := if bytesRead0 % 2 ≠ 0 then bytesRead0 - 1 else bytesRead0
  let samples := bytesToSamples (ev.bytes.take bytesRead)
  let s1 : RecorderState := { s with
    totalBytes := s.totalBytes + bytesRead,
    chunkBuffer := s.chunkBuffer ++ samples,
    audioData := s.audioData ++ samples,
    updateCounter := s.updateCounter + 1 }
  let s2 := if s1.updateCounter % 2 = 0 then writeAudioLevel (calculateAudioLevel samples) s1 else s1
  if recEnabled then recStep ev s2 else s2

/-- The `while (running)` loop (lines 272-327) driven by the list of
successive read outcomes: exit when the stop flag is down or a read
returns zero bytes, else run the body and continue. -/
def recordLoop (recEnabled : Bool) : List ReadEvent → RecorderState → RecorderState
  | [], s => s
  | ev :: rest, s =>
    if s.running = false then s
    else if ev.bytes.length = 0 then s
    else recordLoop recEnabled rest (recordIteration recEnabled ev s)

/-- `saveWAVFile` building blocks: little-endian 16-bit field. -/
def u16le (v : Nat) : List Nat := [v % 256, v / 256 % 256]

/-- Little-endian 32-bit field. -/
def u32le (v : Nat) : List Nat := [v % 256, v / 256 % 256, v / 65536 % 256, v / 16777216 % 256]

/-- Four-character chunk tag as bytes. -/
def asciiBytes (tag : String) : List Nat := tag.toList.map Char.toNat

/-- An `int16_t` sample as two little-endian two's-complement bytes. -/
def int16Bytes (sample : Int) : List Nat := u16le ((sample % 65536).toNat)

/-- The raw sample data section: each sample in order, little-endian. -/
def samplesBytes : List Int → List Nat
  | [] => []
  | x :: rest => int16Bytes x ++ samplesBytes rest

/-- The `WAVHeader` struct of lines 183-197 with the two size fields
filled in as at lines 206-207 (`uint32_t` arithmetic, hence the mod). -/
def wavHeader (numSamples : Nat) : List Nat :=
  let subchunk2Size := (2 * numSamples) % 4294967296
  let chunkSize := (36 + subchunk2Size) % 4294967296
  asciiBytes ("RIFF") ++ u32le chunkSize ++ asciiBytes ("WAVE") ++
  asciiBytes ("fmt ") ++ u32le 16 ++ u16le 1 ++ u16le 1 ++ u32le 16000 ++
  u32le 32000 ++ u16le 2 ++ u16le 16 ++
  asciiBytes ("data") ++ u32le subchunk2Size

/-- `saveWAVFile` (lines 182-212): the byte stream written to the output
artifact, header followed by the raw samples. -/
def saveWAVFile (samples : List Int) : List Nat :=
  wavHeader samples.length ++ samplesBytes samples

/-- Post-loop tail of `record` (lines 329-349): final recognition result
published when the recognizer exists, WAV artifact written when
`audioData` is non-empty, level file reset to 0. Returns the final state
and the WAV bytes written (if any). -/
def recordFinish (recEnabled : Bool) (finalPayload : List Char) (s : RecorderState) :
    RecorderState × Option (List Nat) :=
  let s1 := if recEnabled then
      (let text := extractTextFromJson finalPayload
       if text ≠ [] then writeRecognizedText text s else s)
    else s
  let wav := if s1.audioData ≠ [] then some (saveWAVFile s1.audioData) else none
  let s2 := writeAudioLevel 0 s1
  (s2, wav)

/-- `record` (lines 229-350) for a valid mode: initialize the loop locals
(`totalBytes = 0`, `updateCounter = 0`, empty `chunkBuffer`), run the read
loop, then the finish sequence. -/
def record (recEnabled : Bool) (evs : List ReadEvent) (finalPayload : List Char)
    (s : RecorderState) : RecorderState × Option (List Nat) :=
  recordFinish recEnabled finalPayload
    (recordLoop recEnabled evs { s with totalBytes := 0, updateCounter := 0, chunkBuffer := [] })

/-- `initialize` (lines 31-67), abstracting the external model/recognizer
constructions to two booleans: `modelOk` is "some model loaded (configured
path or default fallback)", `recOk` is "recognizer created". `clearFiles`
runs only on the all-success path; every failure path returns before it. -/
def initRecorder (modelOk recOk : Bool) (s : RecorderState) : Bool × RecorderState :=
  if modelOk = false then (false, s)
  else if recOk = false then (false, s)
  else (true, clearFiles s)

/-- `main` (lines 353-375) for a valid mode choice: run `initialize`; the
session proceeds either way, with the recognizer enabled exactly when
`initialize` succeeded. -/
def mainFlow (modelOk recOk : Bool) (evs : List ReadEvent) (finalPayload : List Char)
    (s : RecorderState) : RecorderState × Option (List Nat) :=
  let r := initRecorder modelOk recOk s
  record r.1 evs finalPayload r.2

/-- The `static AudioRecorder* instance = nullptr;` local of the signal
handler lambdas (lines 216 and 222): initialized to null and never
assigned anywhere in the program. -/
def signalHandlerInstance : Option Unit := none

/-- Body of the SIGINT/SIGTERM handler lambdas (lines 215-226): flip
`running` only if the static instance pointer is non-null. -/
def handleSignal (s : RecorderState) : RecorderState :=
  match signalHandlerInstance with
  | some _ => { s with running := false }
  | none => s

/-- Little-endian 16-bit decode at a byte offset (spec-side, for the WAV
round-trip statement). -/
def decodeU16 (l : List Nat) (off : Nat) : Nat :=
  match (l.drop off).take 2 with
  | [a, b] => a + 256 * b
  | _ => 0

/-- Little-endian 32-bit decode at a byte offset (spec-side). -/
def decodeU32 (l : List Nat) (off : Nat) : Nat :=
  match (l.drop off).take 4 with
  | [a, b, c, d] => a + 256 * b + 65536 * c + 16777216 * d
  | _ => 0

/-- Mean absolute sample magnitude, as an exact rational (spec-side, for
the loudness claims). -/
def meanAbs (samples : List Int) : ℚ :=
  ((samples.map Int.natAbs).sum : ℚ) / (samples.length : ℚ)

/-- A level-file content that renders an integer in [0, 10] (spec-side,
for the level-file invariant). -/
def levelOk (content : List Char) : Prop :=
  ∃ n : Nat, n ≤ 10 ∧ content = (Nat.repr n).toList

/-- A recorder state as at program start: `running = true`, empty buffers
and empty transcript (concrete test state). -/
def freshState : RecorderState :=
  { running := true, audioData := [], chunkBuffer := [],
    accumulatedText := [], outputTextFile := [], audioLevelFile := [],
    modelConfigFile := [], totalBytes := 0, updateCounter := 0 }

/-- A recorder state whose output files still hold content from an
earlier run (concrete test state). -/
def staleState : RecorderState :=
  { running := true, audioData := [], chunkBuffer := [],
    accumulatedText := "old words".toList,
    outputTextFile := "old words".toList,
    audioLevelFile := "7".toList,
    modelConfigFile := [], totalBytes := 0, updateCounter := 0 }

/-- A concrete read event: four bytes (samples 5 and 6), recognizer quiet
(concrete test event). -/
def chunkEv : ReadEvent :=
  { bytes := [5, 0, 6, 0], partPayload := [], acceptFinalized := false, resultPayload := [] }

end AudioRecorder
namespace AudioRecorder

theorem writeOutput_eq (c : List Char) (s : RecorderState) :
    writeToFile OUTPUT_TEXT_FILE c s = { s with outputTextFile := c } := rfl

theorem writeLevel_eq (c : List Char) (s : RecorderState) :
    writeToFile AUDIO_LEVEL_FILE c s = { s with audioLevelFile := c } := rfl

theorem writeAudioLevel_eq (n : Nat) (s : RecorderState) :
    writeAudioLevel n s = { s with audioLevelFile := (Nat.repr n).toList } := rfl

theorem writePartText_eq (t : List Char) (s : RecorderState) :
    writePartText t s = if t = [] then s else { s with outputTextFile := t } := by
  unfold writePartText
  split <;> rfl

theorem writeRecognizedText_eq (t : List Char) (s : RecorderState) :
    writeRecognizedText t s =
      if t = [] then s
      else
        { s with
          accumulatedText :=
            (if s.accumulatedText = [] then s.accumulatedText else s.accumulatedText ++ [' ']) ++ t,
          outputTextFile :=
            (if s.accumulatedText = [] then s.accumulatedText else s.accumulatedText ++ [' ']) ++ t } := by
  unfold writeRecognizedText
  split <;> rfl

theorem recStep_audioData (ev : ReadEvent) (s : RecorderState) :
    (recStep ev s).audioData = s.audioData := by
  unfold recStep
  simp [writePartText_eq, writeRecognizedText_eq, apply_ite RecorderState.audioData]

theorem recStep_chunkBuffer (ev : ReadEvent) (s : RecorderState) :
    (recStep ev s).chunkBuffer = s.chunkBuffer := by
  unfold recStep
  simp [writePartText_eq, writeRecognizedText_eq, apply_ite RecorderState.chunkBuffer]

theorem recStep_totalBytes (ev : ReadEvent) (s : RecorderState) :
    (recStep ev s).totalBytes = s.totalBytes := by
  unfold recStep
  simp [writePartText_eq, writeRecognizedText_eq, apply_ite RecorderState.totalBytes]

theorem recStep_updateCounter (ev : ReadEvent) (s : RecorderState) :
    (recStep ev s).updateCounter = s.updateCounter := by
  unfold recStep
  simp [writePartText_eq, writeRecognizedText_eq, apply_ite RecorderState.updateCounter]

theorem recStep_running (ev : ReadEvent) (s : RecorderState) :
    (recStep ev s).running = s.running := by
  unfold recStep
  simp [writePartText_eq, writeRecognizedText_eq, apply_ite RecorderState.running]

theorem recStep_audioLevelFile (ev : ReadEvent) (s : RecorderState) :
    (recStep ev s).audioLevelFile = s.audioLevelFile := by
  unfold recStep
  simp [writePartText_eq, writeRecognizedText_eq, apply_ite RecorderState.audioLevelFile]

theorem bytesToSamples_length : ∀ l : List Nat, (bytesToSamples l).length = l.length / 2
  | [] => by simp [bytesToSamples]
  | [_] => by simp [bytesToSamples]
  | _ :: _ :: rest => by
      simp [bytesToSamples, bytesToSamples_length rest]
      omega

theorem recordIteration_audioData (b : Bool) (ev : ReadEvent) (s : RecorderState) :
    (recordIteration b ev s).audioData
      = s.audioData ++ bytesToSamples (ev.bytes.take
          (if ev.bytes.length % 2 ≠ 0 then ev.bytes.length - 1 else ev.bytes.length)) := by
  unfold recordIteration
  simp [writeAudioLevel_eq, recStep_audioData,
    apply_ite RecorderState.audioData, apply_ite (recStep ev)]

theorem recordIteration_chunkBuffer (b : Bool) (ev : ReadEvent) (s : RecorderState) :
    (recordIteration b ev s).chunkBuffer
      = s.chunkBuffer ++ bytesToSamples (ev.bytes.take
          (if ev.bytes.length % 2 ≠ 0 then ev.bytes.length - 1 else ev.bytes.length)) := by
  unfold recordIteration
  simp [writeAudioLevel_eq, recStep_chunkBuffer,
    apply_ite RecorderState.chunkBuffer, apply_ite (recStep ev)]

theorem recordIteration_totalBytes (b : Bool) (ev : ReadEvent) (s : RecorderState) :
    (recordIteration b ev s).totalBytes
      = s.totalBytes + (if ev.bytes.length % 2 ≠ 0 then ev.bytes.length - 1 else ev.bytes.length) := by
  unfold recordIteration
  simp [writeAudioLevel_eq, recStep_totalBytes,
    apply_ite RecorderState.totalBytes, apply_ite (recStep ev)]

theorem recordIteration_running (b : Bool) (ev : ReadEvent) (s : RecorderState) :
    (recordIteration b ev s).running = s.running := by
  unfold recordIteration
  simp [writeAudioLevel_eq, recStep_running,
    apply_ite RecorderState.running, apply_ite (recStep ev)]

end AudioRecorder
namespace AudioRecorder

theorem recStep_congr (b1 b2 : List Nat) (pp : List Char) (af : Bool) (rp : List Char)
    (s : RecorderState) :
    recStep ⟨b1, pp, af, rp⟩ s = recStep ⟨b2, pp, af, rp⟩ s := rfl

theorem recordLoop_len_inv (b : Bool) : ∀ (evs : List ReadEvent) (s : RecorderState),
    2 * s.audioData.length = s.totalBytes →
    2 * (recordLoop b evs s).audioData.length = (recordLoop b evs s).totalBytes
  | [], _, h => h
  | ev :: rest, s, h => by
      unfold recordLoop
      split
      · exact h
      · split
        · exact h
        · refine recordLoop_len_inv b rest _ ?_
          rw [recordIteration_audioData, recordIteration_totalBytes]
          rcases Nat.mod_two_eq_zero_or_one ev.bytes.length with h2 | h2 <;>
            simp [h2, bytesToSamples_length, List.length_take] <;> omega

theorem recordLoop_chunkDup (b : Bool) : ∀ (evs : List ReadEvent) (s : RecorderState),
    s.chunkBuffer = s.audioData →
    (recordLoop b evs s).chunkBuffer = (recordLoop b evs s).audioData
  | [], _, h => h
  | ev :: rest, s, h => by
      unfold recordLoop
      split
      · exact h
      · split
        · exact h
        · refine recordLoop_chunkDup b rest _ ?_
          rw [recordIteration_audioData, recordIteration_chunkBuffer, h]

theorem recordFinish_keeps (b : Bool) (fin : List Char) (s : RecorderState) :
    ((recordFinish b fin s).1).audioData = s.audioData
    ∧ ((recordFinish b fin s).1).chunkBuffer = s.chunkBuffer
    ∧ ((recordFinish b fin s).1).totalBytes = s.totalBytes
    ∧ ((recordFinish b fin s).1).audioLevelFile = (Nat.repr 0).toList := by
  unfold recordFinish
  refine ⟨?_, ?_, ?_, ?_⟩ <;>
    simp [writeAudioLevel_eq, writeRecognizedText_eq,
      apply_ite RecorderState.audioData, apply_ite RecorderState.chunkBuffer,
      apply_ite RecorderState.totalBytes]

/-- C1: per read, the Sample Buffer grows by exactly `⌊bytes/2⌋` samples —
for an odd byte count one fewer than `ceil(bytes/2)`; the dangling odd
trailing byte has no effect on the resulting state at all (in particular
it is not carried into the next read and no stored value derives from it);
and across any run of the loop, twice the Sample Buffer length equals the
total bytes counted from the audio source. -/
theorem C1_sampleBufferLength :
    (∀ (b : Bool) (ev : ReadEvent) (s : RecorderState),
        (recordIteration b ev s).audioData.length
          = s.audioData.length + ev.bytes.length / 2)
    ∧ (∀ (b : Bool) (ev : ReadEvent) (s : RecorderState), ev.bytes.length % 2 = 1 →
        (recordIteration b ev s).audioData.length + 1
          = s.audioData.length + (ev.bytes.length + 1) / 2)
    ∧ (∀ (b : Bool) (s : RecorderState) (bs : List Nat) (x : Nat)
        (pp : List Char) (af : Bool) (rp : List Char), bs.length % 2 = 0 →
        recordIteration b ⟨bs ++ [x], pp, af, rp⟩ s = recordIteration b ⟨bs, pp, af, rp⟩ s)
    ∧ (∀ (b : Bool) (evs : List ReadEvent) (s : RecorderState),
        2 * s.audioData.length = s.totalBytes →
        2 * (recordLoop b evs s).audioData.length = (recordLoop b evs s).totalBytes)
    ∧ (∀ (b : Bool) (evs : List ReadEvent) (fin : List Char) (s : RecorderState),
        s.audioData = [] →
        2 * ((record b evs fin s).1).audioData.length = ((record b evs fin s).1).totalBytes) := by
  refine ⟨?_, ?_, ?_, fun b evs s h => recordLoop_len_inv b evs s h, ?_⟩
  · intro b ev s
    rw [recordIteration_audioData]
    rcases Nat.mod_two_eq_zero_or_one ev.bytes.length with h2 | h2 <;>
      · simp [h2, bytesToSamples_length, List.length_take]
        try omega
  · intro b ev s h2
    rw [recordIteration_audioData]
    simp [h2, bytesToSamples_length, List.length_take]
    omega
  · intro b s bs x pp af rp h
    have h1 : (bs.length + 1) % 2 = 1 := by omega
    unfold recordIteration
    simp [h1, h, List.take_left, List.take_length]
    rfl
  · intro b evs fin s h
    unfold record
    rw [(recordFinish_keeps _ _ _).1, (recordFinish_keeps _ _ _).2.2.1]
    refine recordLoop_len_inv b evs _ ?_
    simp [h]

/-- C1 witness: a concrete three-byte (odd) read leaves exactly the state
of the corresponding two-byte read, and a concrete session satisfies the
length invariant. -/
theorem C1_sampleBufferLength_witness :
    recordIteration false
        { bytes := [1, 2, 9], partPayload := [], acceptFinalized := false, resultPayload := [] }
        freshState
      = recordIteration false
        { bytes := [1, 2], partPayload := [], acceptFinalized := false, resultPayload := [] }
        freshState
    ∧ 2 * ((record false [chunkEv] [] freshState).1).audioData.length
      = ((record false [chunkEv] [] freshState).1).totalBytes :=
  ⟨C1_sampleBufferLength.2.2.1 false freshState [1, 2] 9 [] false [] (by decide),
   C1_sampleBufferLength.2.2.2.2 false [chunkEv] [] freshState rfl⟩

end AudioRecorder
namespace AudioRecorder

/-- C2 is a code bug: the SIGINT/SIGTERM handlers read a function-local
static instance pointer that is initialized to null and never assigned
(and `setSignalHandler` is never called from `main`), so delivering the
signal never flips the stop flag: the handler is an identity on the
recorder state and the loop behaves as if no signal arrived. -/
theorem C2_signalHandlerNoop :
    (∀ s : RecorderState, handleSignal s = s)
    ∧ (∀ s : RecorderState, (handleSignal s).running = s.running)
    ∧ (∀ (b : Bool) (evs : List ReadEvent) (s : RecorderState),
        recordLoop b evs (handleSignal s) = recordLoop b evs s) :=
  ⟨fun _ => rfl, fun _ => rfl, fun _ _ _ => rfl⟩

/-- C6: publishing empty final text is a no-op; publishing non-empty text
appends it to the transcript (space-joined when the transcript is
non-empty) and overwrites the current-text file with the whole updated
transcript; "hello" then "world" from an empty transcript gives
"hello world". -/
theorem C6_transcriptAccumulation :
    (∀ s : RecorderState, writeRecognizedText [] s = s)
    ∧ (∀ (s : RecorderState) (text : List Char), text ≠ [] →
        (writeRecognizedText text s).accumulatedText =
          (if s.accumulatedText = [] then s.accumulatedText else s.accumulatedText ++ [' ']) ++ text
        ∧ (writeRecognizedText text s).outputTextFile =
          (writeRecognizedText text s).accumulatedText)
    ∧ (∀ s : RecorderState, s.accumulatedText = [] →
        (writeRecognizedText ("world".toList) (writeRecognizedText ("hello".toList) s)).accumulatedText
          = "hello world".toList
        ∧ (writeRecognizedText ("world".toList) (writeRecognizedText ("hello".toList) s)).outputTextFile
          = "hello world".toList) := by
  refine ⟨fun s => rfl, fun s text ht => ?_, fun s h => ?_⟩
  · rw [writeRecognizedText_eq, if_neg ht]
    exact ⟨rfl, rfl⟩
  · have hstep : writeRecognizedText ("hello".toList) s
        = { s with accumulatedText := "hello".toList, outputTextFile := "hello".toList } := by
      rw [writeRecognizedText_eq, if_neg (by decide : ("hello".toList : List Char) ≠ [])]
      simp [h]
    rw [hstep, writeRecognizedText_eq, if_neg (by decide : ("world".toList : List Char) ≠ [])]
    have hfin : (if ("hello".toList : List Char) = [] then ("hello".toList : List Char)
        else "hello".toList ++ [' ']) ++ "world".toList = "hello world".toList := by decide
    exact ⟨hfin, hfin⟩

end AudioRecorder
namespace AudioRecorder

/-- C6 witness: the accumulation behavior at the concrete fresh state. -/
theorem C6_transcriptAccumulation_witness :
    (writeRecognizedText ("world".toList) (writeRecognizedText ("hello".toList) freshState)).accumulatedText
      = "hello world".toList
    ∧ (writeRecognizedText ("x".toList) staleState).accumulatedText
      = (if staleState.accumulatedText = [] then staleState.accumulatedText
         else staleState.accumulatedText ++ [' ']) ++ "x".toList :=
  ⟨(C6_transcriptAccumulation.2.2 freshState rfl).1,
   (C6_transcriptAccumulation.2.1 staleState ("x".toList) (by decide)).1⟩

/-- C8 counterexample: when recognizer initialization fails (recognition-
disabled mode), no reset happens — the stale transcript survives the
whole session, contradicting the claim that every session, including a
recognition-disabled one, starts with a reset. -/
theorem C8_counterexample :
    (initRecorder false false staleState).2 = staleState
    ∧ (mainFlow false false [] [] staleState).1.accumulatedText = "old words".toList
    ∧ ("old words".toList : List Char) ≠ [] := by
  refine ⟨rfl, by decide, by decide⟩

/-- C8 amended: the State Publisher reset runs at session start exactly
when recognizer initialization fully succeeds — it then clears the
transcript and the current-text slot and sets the level slot to "0"
before the read loop; on any initialization failure (recognition-disabled
mode) no reset is performed and the prior state persists. -/
theorem C8_resetOnlyOnInitSuccess :
    (∀ s : RecorderState, initRecorder true true s = (true, clearFiles s))
    ∧ (∀ s : RecorderState, (clearFiles s).accumulatedText = []
        ∧ (clearFiles s).outputTextFile = []
        ∧ (clearFiles s).audioLevelFile = "0".toList)
    ∧ (∀ (b : Bool) (s : RecorderState), initRecorder false b s = (false, s))
    ∧ (∀ s : RecorderState, initRecorder true false s = (false, s))
    ∧ (∀ (mOk rOk : Bool) (evs : List ReadEvent) (fin : List Char) (s : RecorderState),
        mainFlow mOk rOk evs fin s
          = record (initRecorder mOk rOk s).1 evs fin (initRecorder mOk rOk s).2) :=
  ⟨fun _ => rfl, fun _ => ⟨rfl, rfl, rfl⟩, fun _ _ => rfl, fun _ => rfl,
   fun _ _ _ _ _ => rfl⟩

/-- C9 counterexample: after one loop iteration the chunk's samples are
retained in a second buffer (`chunkBuffer`), which still holds them when
the next iteration starts and keeps accumulating — contradicting the
claim that the Sample Buffer is the only state retaining chunk samples. -/
theorem C9_counterexample :
    (recordIteration false chunkEv freshState).chunkBuffer = [5, 6]
    ∧ (recordIteration false chunkEv freshState).chunkBuffer ≠ []
    ∧ (recordLoop false [chunkEv, chunkEv] freshState).chunkBuffer = [5, 6, 5, 6] :=
  ⟨by decide, by decide, by decide⟩

/-- C9 amended: the loop retains the chunk's samples in exactly two
places: the Sample Buffer (`audioData`) and a second, never-read
accumulating buffer (`chunkBuffer`) that mirrors it sample for sample;
each iteration appends the chunk's samples to both and retains nothing
else from the chunk. -/
theorem C9_chunkBufferDuplicate :
    (∀ (b : Bool) (ev : ReadEvent) (s : RecorderState),
        (recordIteration b ev s).chunkBuffer
          = s.chunkBuffer ++ bytesToSamples (ev.bytes.take
              (if ev.bytes.length % 2 ≠ 0 then ev.bytes.length - 1 else ev.bytes.length)))
    ∧ (∀ (b : Bool) (evs : List ReadEvent) (s : RecorderState),
        s.chunkBuffer = s.audioData →
        (recordLoop b evs s).chunkBuffer = (recordLoop b evs s).audioData)
    ∧ (∀ (b : Bool) (evs : List ReadEvent) (fin : List Char) (s : RecorderState),
        s.audioData = [] →
        ((record b evs fin s).1).chunkBuffer = ((record b evs fin s).1).audioData) := by
  refine ⟨fun b ev s => recordIteration_chunkBuffer b ev s,
    fun b evs s h => recordLoop_chunkDup b evs s h, ?_⟩
  intro b evs fin s h
  unfold record
  rw [(recordFinish_keeps _ _ _).2.1, (recordFinish_keeps _ _ _).1]
  refine recordLoop_chunkDup b evs _ ?_
  simp [h]

/-- C9 amended-claim witness: the duplication invariant at a concrete
two-iteration session. -/
theorem C9_chunkBufferDuplicate_witness :
    ((record false [chunkEv, chunkEv] [] freshState).1).chunkBuffer
      = ((record false [chunkEv, chunkEv] [] freshState).1).audioData :=
  C9_chunkBufferDuplicate.2.2 false [chunkEv, chunkEv] [] freshState rfl

end AudioRecorder
namespace AudioRecorder

theorem calculateAudioLevel_eq_min (samples : List Int) (h : samples ≠ []) :
    calculateAudioLevel samples
      = min 10 (10 * (samples.map Int.natAbs).sum / (32767 * samples.length)) := by
  unfold calculateAudioLevel
  rw [if_neg (by simp [List.length_eq_zero, h])]
  dsimp only
  split <;> omega

theorem calculateAudioLevel_le_ten (samples : List Int) : calculateAudioLevel samples ≤ 10 := by
  unfold calculateAudioLevel
  split
  · omega
  · dsimp only
    split <;> omega

theorem nat_div_le_div_cross (a b c d : Nat) (hb : 0 < b) (hd : 0 < d) (h : a * d ≤ c * b) :
    a / b ≤ c / d := by
  rw [Nat.le_div_iff_mul_le hd]
  calc a / b * d ≤ a * d / b := by
        rw [Nat.le_div_iff_mul_le hb]
        calc a / b * d * b = a / b * b * d := by ring
        _ ≤ a * d := Nat.mul_le_mul_right d (Nat.div_mul_le_self a b)
  _ ≤ c * b / b := Nat.div_le_div_right h
  _ = c := Nat.mul_div_cancel c hb

theorem meanAbs_le_cross (s1 s2 : List Int) (h1 : s1 ≠ []) (h2 : s2 ≠ [])
    (hm : meanAbs s1 ≤ meanAbs s2) :
    (s1.map Int.natAbs).sum * s2.length ≤ (s2.map Int.natAbs).sum * s1.length := by
  unfold meanAbs at hm
  rw [div_le_div_iff₀ (by exact_mod_cast List.length_pos.mpr h1)
    (by exact_mod_cast List.length_pos.mpr h2)] at hm
  exact_mod_cast hm

theorem calculateAudioLevel_mono (s1 s2 : List Int) (h1 : s1 ≠ []) (h2 : s2 ≠ [])
    (hm : meanAbs s1 ≤ meanAbs s2) :
    calculateAudioLevel s1 ≤ calculateAudioLevel s2 := by
  rw [calculateAudioLevel_eq_min s1 h1, calculateAudioLevel_eq_min s2 h2]
  refine min_le_min (le_refl 10) ?_
  refine nat_div_le_div_cross _ _ _ _
    (Nat.mul_pos (by norm_num) (List.length_pos.mpr h1))
    (Nat.mul_pos (by norm_num) (List.length_pos.mpr h2)) ?_
  have hc := meanAbs_le_cross s1 s2 h1 h2 hm
  calc 10 * (s1.map Int.natAbs).sum * (32767 * s2.length)
      = 327670 * ((s1.map Int.natAbs).sum * s2.length) := by ring
  _ ≤ 327670 * ((s2.map Int.natAbs).sum * s1.length) := Nat.mul_le_mul_left 327670 hc
  _ = 10 * (s2.map Int.natAbs).sum * (32767 * s1.length) := by ring

theorem floor_meanAbs_div (samples : List Int) (h : samples ≠ []) :
    Nat.floor (meanAbs samples / (32767 / 10 : ℚ))
      = 10 * (samples.map Int.natAbs).sum / (32767 * samples.length) := by
  have hn : (0:ℚ) < (samples.length : ℚ) := by exact_mod_cast List.length_pos.mpr h
  have key : meanAbs samples / (32767 / 10 : ℚ)
      = ((10 * (samples.map Int.natAbs).sum : ℕ) : ℚ) / ((32767 * samples.length : ℕ) : ℚ) := by
    unfold meanAbs
    push_cast
    field_simp
    ring
  rw [key, Nat.floor_div_nat, Nat.floor_natCast]

/-- C4: the Loudness Estimator returns a value in [0, 10] (values are
naturals, so the lower bound is inherent); 0 on the empty chunk and on an
all-zero chunk; 10 on an all-maximum-magnitude chunk; on a non-empty
chunk it is the mean absolute magnitude divided by 32767/10, truncated
toward zero and clamped at 10; and it is monotone in the mean magnitude. -/
theorem C4_loudnessEstimator :
    (∀ samples : List Int, calculateAudioLevel samples ≤ 10)
    ∧ calculateAudioLevel [] = 0
    ∧ (∀ samples : List Int, (∀ x ∈ samples, x = 0) → calculateAudioLevel samples = 0)
    ∧ (∀ samples : List Int, samples ≠ [] → (∀ x ∈ samples, x.natAbs = 32767) →
        calculateAudioLevel samples = 10)
    ∧ (∀ samples : List Int, samples ≠ [] →
        calculateAudioLevel samples
          = min 10 (Nat.floor (meanAbs samples / (32767 / 10 : ℚ))))
    ∧ (∀ s1 s2 : List Int, s1 ≠ [] → s2 ≠ [] → meanAbs s1 ≤ meanAbs s2 →
        calculateAudioLevel s1 ≤ calculateAudioLevel s2) := by
  refine ⟨calculateAudioLevel_le_ten, rfl, ?_, ?_, ?_, calculateAudioLevel_mono⟩
  · intro samples hz
    have hs : (samples.map Int.natAbs).sum = 0 := by
      refine List.sum_eq_zero ?_
      intro x hx
      rcases List.mem_map.mp hx with ⟨y, hy, rfl⟩
      simp [hz y hy]
    unfold calculateAudioLevel
    split
    · rfl
    · dsimp only
      rw [hs]
      simp
  · intro samples hne hmax
    have hrep : samples.map Int.natAbs = List.replicate samples.length 32767 := by
      rw [List.eq_replicate_iff]
      constructor
      · simp
      · intro b hb
        rcases List.mem_map.mp hb with ⟨y, hy, rfl⟩
        exact hmax y hy
    have hsum : (samples.map Int.natAbs).sum = samples.length * 32767 := by
      rw [hrep, List.sum_replicate, smul_eq_mul]
    rw [calculateAudioLevel_eq_min samples hne, hsum]
    have hpos : 0 < 32767 * samples.length :=
      Nat.mul_pos (by norm_num) (List.length_pos.mpr hne)
    have : 10 * (samples.length * 32767) / (32767 * samples.length) = 10 := by
      rw [show 10 * (samples.length * 32767) = 10 * (32767 * samples.length) by ring]
      exact Nat.mul_div_cancel 10 hpos
    rw [this]
    simp
  · intro samples hne
    rw [calculateAudioLevel_eq_min samples hne, floor_meanAbs_div samples hne]

/-- C4 witness: concrete instances of the hypothesized parts: all-max
chunk gives 10, formula at a small chunk, monotonicity at two concrete
chunks. -/
theorem C4_loudnessEstimator_witness :
    calculateAudioLevel [32767, -32767] = 10
    ∧ calculateAudioLevel [3277] = min 10 (Nat.floor (meanAbs [3277] / (32767 / 10 : ℚ)))
    ∧ calculateAudioLevel [100] ≤ calculateAudioLevel [32767] :=
  ⟨C4_loudnessEstimator.2.2.2.1 [32767, -32767] (by decide) (by decide),
   C4_loudnessEstimator.2.2.2.2.1 [3277] (by decide),
   C4_loudnessEstimator.2.2.2.2.2 [100] [32767] (by decide) (by decide)
     (by norm_num [meanAbs])⟩

end AudioRecorder
namespace AudioRecorder

theorem recordIteration_audioLevelFile (b : Bool) (ev : ReadEvent) (s : RecorderState) :
    (recordIteration b ev s).audioLevelFile
      = if (s.updateCounter + 1) % 2 = 0
        then (Nat.repr (calculateAudioLevel (bytesToSamples (ev.bytes.take
          (if ev.bytes.length % 2 ≠ 0 then ev.bytes.length - 1 else ev.bytes.length))))).toList
        else s.audioLevelFile := by
  unfold recordIteration
  simp [writeAudioLevel_eq, recStep_audioLevelFile,
    apply_ite RecorderState.audioLevelFile, apply_ite (recStep ev)]

theorem levelOk_recordIteration (b : Bool) (ev : ReadEvent) (s : RecorderState)
    (h : levelOk s.audioLevelFile) :
    levelOk ((recordIteration b ev s).audioLevelFile) := by
  rw [recordIteration_audioLevelFile]
  split
  · exact ⟨_, calculateAudioLevel_le_ten _, rfl⟩
  · exact h

theorem recordLoop_levelOk (b : Bool) : ∀ (evs : List ReadEvent) (s : RecorderState),
    levelOk s.audioLevelFile → levelOk ((recordLoop b evs s).audioLevelFile)
  | [], _, h => h
  | ev :: rest, s, h => by
      unfold recordLoop
      split
      · exact h
      · split
        · exact h
        · exact recordLoop_levelOk b rest _ (levelOk_recordIteration b ev s h)

/-- C10: every content the program ever puts in the level file renders an
integer in [0, 10] — the session-start reset writes "0", each in-loop
publish writes the decimal form of the clamped loudness value (which is
at most 10), any state with a well-formed level slot keeps one through
the loop, the end-of-session publish writes "0", and hence every full
session ends with "0" in the slot. -/
theorem C10_levelFileRange :
    (∀ s : RecorderState, (clearFiles s).audioLevelFile = (Nat.repr 0).toList)
    ∧ (∀ (b : Bool) (ev : ReadEvent) (s : RecorderState), levelOk s.audioLevelFile →
        levelOk ((recordIteration b ev s).audioLevelFile))
    ∧ (∀ samples : List Int, calculateAudioLevel samples ≤ 10)
    ∧ (∀ (b : Bool) (evs : List ReadEvent) (s : RecorderState), levelOk s.audioLevelFile →
        levelOk ((recordLoop b evs s).audioLevelFile))
    ∧ (∀ (b : Bool) (fin : List Char) (s : RecorderState),
        ((recordFinish b fin s).1).audioLevelFile = (Nat.repr 0).toList)
    ∧ (∀ (mOk rOk : Bool) (evs : List ReadEvent) (fin : List Char) (s : RecorderState),
        ((mainFlow mOk rOk evs fin s).1).audioLevelFile = (Nat.repr 0).toList) := by
  refine ⟨fun s => rfl, levelOk_recordIteration, calculateAudioLevel_le_ten,
    recordLoop_levelOk, fun b fin s => (recordFinish_keeps b fin s).2.2.2, ?_⟩
  intro mOk rOk evs fin s
  unfold mainFlow record
  exact (recordFinish_keeps _ _ _).2.2.2

/-- C10 witness: preservation of the level-slot invariant at a concrete
state and a concrete loop run. -/
theorem C10_levelFileRange_witness :
    levelOk ((recordIteration true chunkEv staleState).audioLevelFile)
    ∧ levelOk ((recordLoop false [chunkEv] staleState).audioLevelFile) :=
  ⟨C10_levelFileRange.2.1 true chunkEv staleState ⟨7, by norm_num, by decide⟩,
   C10_levelFileRange.2.2.2.1 false [chunkEv] staleState ⟨7, by norm_num, by decide⟩⟩

end AudioRecorder
namespace AudioRecorder

theorem writePartText_guard (t : List Char) (s : RecorderState) :
    (if t ≠ [] then writePartText t s else s) = writePartText t s := by
  split
  · rfl
  · rw [writePartText_eq]
    simp_all

theorem writeRecognizedText_guard (t : List Char) (s : RecorderState) :
    (if t ≠ [] then writeRecognizedText t s else s) = writeRecognizedText t s := by
  split
  · rfl
  · rw [writeRecognizedText_eq]
    simp_all

/-- C3: in a recognizer-enabled iteration the recognizer block runs
exactly once on top of the capture bookkeeping; its call sequence feeds
the chunk to accept exactly once, retrieves the partial result every
iteration, and retrieves the finalized result exactly when accept
reports a completed segment; its state effect is publish-partial-text of
the extracted partial text followed, when the segment finalized, by
publish-final-text of the extracted final text (both publishers no-op on
empty text). -/
theorem C3_recognizerStep :
    (∀ (ev : ReadEvent) (s : RecorderState),
        recordIteration true ev s = recStep ev (recordIteration false ev s))
    ∧ (∀ (ev : ReadEvent) (s : RecorderState),
        recStep ev s =
          (if ev.acceptFinalized
           then writeRecognizedText (extractTextFromJson ev.resultPayload)
                  (writePartText (extractTextFromJson ev.partPayload) s)
           else writePartText (extractTextFromJson ev.partPayload) s))
    ∧ (∀ ev : ReadEvent, (recStepOps ev).count RecOp.accept = 1)
    ∧ (∀ ev : ReadEvent, RecOp.getPart ∈ recStepOps ev)
    ∧ (∀ ev : ReadEvent, ev.acceptFinalized = true → RecOp.getResult ∈ recStepOps ev) := by
  refine ⟨fun ev s => rfl, ?_, ?_, ?_, ?_⟩
  · intro ev s
    simp only [recStep]
    rw [writePartText_guard]
    cases haf : ev.acceptFinalized
    · simp
    · simp only [if_true]
      rw [writeRecognizedText_guard]
  · intro ev
    cases haf : ev.acceptFinalized <;> simp [recStepOps, haf]
  · intro ev
    cases haf : ev.acceptFinalized <;> simp [recStepOps, haf]
  · intro ev haf
    simp [recStepOps, haf]

/-- C3 witness: the finalized-segment branch at a concrete event. -/
theorem C3_recognizerStep_witness :
    RecOp.getResult ∈ recStepOps
      { bytes := [], partPayload := [], acceptFinalized := true, resultPayload := [] } :=
  C3_recognizerStep.2.2.2.2 _ rfl

end AudioRecorder
namespace AudioRecorder

theorem drop_append_add (X Y : List Char) (m : Nat) :
    (X ++ Y).drop (X.length + m) = Y.drop m := by
  rw [← List.drop_drop, List.drop_left]

theorem isPrefixOf_append_self : ∀ (pat R : List Char), pat.isPrefixOf (pat ++ R) = true
  | [], _ => by simp [List.isPrefixOf]
  | a :: as, R => by simp [List.isPrefixOf, isPrefixOf_append_self as R]

theorem findAux_eq_none (pat : List Char) : ∀ (t : List Char) (i : Nat),
    (∀ k, pat.isPrefixOf (t.drop k) = false) →
    findAux pat t i = none
  | [], _, _ => by unfold findAux; rfl
  | c :: rest, i, h => by
      have h0 := h 0
      rw [List.drop_zero] at h0
      unfold findAux
      rw [h0]
      simp only [Bool.false_eq_true, if_false]
      exact findAux_eq_none pat rest (i + 1) fun k => by
        have hk := h (k + 1)
        rwa [List.drop_succ_cons] at hk

theorem findAux_eq_some (pat : List Char) (hpat : pat ≠ []) :
    ∀ (t : List Char) (i j : Nat),
    pat.isPrefixOf (t.drop j) = true →
    (∀ k, k < j → pat.isPrefixOf (t.drop k) = false) →
    findAux pat t i = some (i + j)
  | [], _, j, hj, _ => by
      exfalso
      rw [List.drop_nil] at hj
      cases pat with
      | nil => exact hpat rfl
      | cons a as => simp [List.isPrefixOf] at hj
  | c :: rest, i, j, hj, hmin => by
      cases j with
      | zero =>
          rw [List.drop_zero] at hj
          unfold findAux
          simp [hj]
      | succ j' =>
          have h0 := hmin 0 (Nat.succ_pos j')
          rw [List.drop_zero] at h0
          unfold findAux
          rw [h0]
          simp only [Bool.false_eq_true, if_false]
          have hj' : pat.isPrefixOf (rest.drop j') = true := by
            rwa [List.drop_succ_cons] at hj
          have hmin' : ∀ k, k < j' → pat.isPrefixOf (rest.drop k) = false := fun k hk => by
            have hm := hmin (k + 1) (Nat.succ_lt_succ hk)
            rwa [List.drop_succ_cons] at hm
          rw [findAux_eq_some pat hpat rest (i + 1) j' hj' hmin']
          congr 1
          omega

theorem findFrom_eq_some (s pat : List Char) (start j : Nat) (hpat : pat ≠ [])
    (hle : start ≤ j)
    (hj : pat.isPrefixOf (s.drop j) = true)
    (hmin : ∀ k, start ≤ k → k < j → pat.isPrefixOf (s.drop k) = false) :
    findFrom s pat start = some j := by
  unfold findFrom
  have hdd : ∀ m, (s.drop start).drop m = s.drop (start + m) := by
    intro m
    rw [List.drop_drop]
  have hj' : pat.isPrefixOf ((s.drop start).drop (j - start)) = true := by
    rw [hdd, show start + (j - start) = j from by omega]
    exact hj
  have hmin' : ∀ k, k < j - start → pat.isPrefixOf ((s.drop start).drop k) = false := by
    intro k hk
    rw [hdd]
    exact hmin (start + k) (by omega) (by omega)
  rw [findAux_eq_some pat hpat (s.drop start) start (j - start) hj' hmin']
  congr 1
  omega

theorem single_prefix_false (c : Char) : ∀ (A B : List Char), c ∉ A →
    ∀ k, k < A.length → ([c].isPrefixOf ((A ++ B).drop k)) = false
  | [], _, _, k, hk => by simp at hk
  | a :: as, B, hc, k, hk => by
      simp only [List.mem_cons, not_or] at hc
      cases k with
      | zero =>
          rw [List.drop_zero, List.cons_append]
          simp only [List.isPrefixOf, Bool.and_eq_false_iff]
          left
          exact beq_eq_false_iff_ne.mpr hc.1
      | succ k' =>
          rw [List.cons_append, List.drop_succ_cons]
          exact single_prefix_false c as B hc.2 k' (by simpa using hk)

theorem findFrom_single_skip (c : Char) (P A R : List Char) (n : Nat)
    (hn : n = P.length) (hc : c ∉ A) :
    findFrom (P ++ (A ++ (c :: R))) [c] n = some (n + A.length) := by
  subst hn
  refine findFrom_eq_some _ _ _ _ (by simp) (by omega) ?_ ?_
  · rw [drop_append_add, List.drop_left]
    simp [List.isPrefixOf]
  · intro k hk1 hk2
    obtain ⟨k', rfl⟩ : ∃ k', k = P.length + k' := ⟨k - P.length, by omega⟩
    rw [drop_append_add]
    exact single_prefix_false c A (c :: R) hc k' (by omega)

end AudioRecorder
namespace AudioRecorder

theorem extract_wellFormed (pre mid mid2 v post : List Char)
    (hfirst : ∀ k, k < pre.length →
      textKey.isPrefixOf ((pre ++ (textKey ++ (mid ++ (':' :: (mid2 ++ ('"' :: (v ++ ('"' :: post)))))))).drop k) = false)
    (hmid : ':' ∉ mid) (hmid2 : '"' ∉ mid2) (hv : '"' ∉ v) :
    extractTextFromJson
      (pre ++ (textKey ++ (mid ++ (':' :: (mid2 ++ ('"' :: (v ++ ('"' :: post)))))))) = v := by
  have hA : findFrom (pre ++ (textKey ++ (mid ++ (':' :: (mid2 ++ ('"' :: (v ++ ('"' :: post))))))))
      textKey 0 = some pre.length := by
    refine findFrom_eq_some _ _ _ _ (by decide) (Nat.zero_le _) ?_ ?_
    · rw [List.drop_left]
      exact isPrefixOf_append_self textKey _
    · intro k _ hk
      exact hfirst k hk
  have hB : findFrom (pre ++ (textKey ++ (mid ++ (':' :: (mid2 ++ ('"' :: (v ++ ('"' :: post))))))))
      [':'] pre.length = some (pre.length + (textKey ++ mid).length) := by
    have hshape : pre ++ (textKey ++ (mid ++ (':' :: (mid2 ++ ('"' :: (v ++ ('"' :: post)))))))
        = pre ++ ((textKey ++ mid) ++ (':' :: (mid2 ++ ('"' :: (v ++ ('"' :: post)))))) := by
      simp [List.append_assoc]
    rw [hshape]
    refine findFrom_single_skip ':' pre (textKey ++ mid) _ _ rfl ?_
    rw [List.mem_append]
    push_neg
    exact ⟨by decide, hmid⟩
  have hC : findFrom (pre ++ (textKey ++ (mid ++ (':' :: (mid2 ++ ('"' :: (v ++ ('"' :: post))))))))
      ['"'] (pre.length + (textKey ++ mid).length)
      = some (pre.length + (textKey ++ mid).length + (':' :: mid2).length) := by
    have hshape : pre ++ (textKey ++ (mid ++ (':' :: (mid2 ++ ('"' :: (v ++ ('"' :: post)))))))
        = (pre ++ (textKey ++ mid)) ++ ((':' :: mid2) ++ ('"' :: (v ++ ('"' :: post)))) := by
      simp [List.append_assoc]
    rw [hshape]
    refine findFrom_single_skip '"' (pre ++ (textKey ++ mid)) (':' :: mid2) _ _ (by simp) ?_
    rw [List.mem_cons]
    push_neg
    exact ⟨by decide, hmid2⟩
  have hD : findFrom (pre ++ (textKey ++ (mid ++ (':' :: (mid2 ++ ('"' :: (v ++ ('"' :: post))))))))
      ['"'] (pre.length + (textKey ++ mid).length + (':' :: mid2).length + 1)
      = some (pre.length + (textKey ++ mid).length + (':' :: mid2).length + 1 + v.length) := by
    have hshape : pre ++ (textKey ++ (mid ++ (':' :: (mid2 ++ ('"' :: (v ++ ('"' :: post)))))))
        = ((pre ++ (textKey ++ mid)) ++ ((':' :: mid2) ++ ['"'])) ++ (v ++ ('"' :: post)) := by
      simp [List.append_assoc]
    rw [hshape]
    refine findFrom_single_skip '"' ((pre ++ (textKey ++ mid)) ++ ((':' :: mid2) ++ ['"']))
      v post _ ?_ hv
    simp
    omega
  unfold extractTextFromJson
  simp only [hA, hB, hC, hD]
  set X := pre.length + (textKey ++ mid).length + (':' :: mid2).length with hX
  have hdropS : (pre ++ (textKey ++ (mid ++ (':' :: (mid2 ++ ('"' :: (v ++ ('"' :: post)))))))).drop (X + 1)
      = v ++ ('"' :: post) := by
    have hshape : pre ++ (textKey ++ (mid ++ (':' :: (mid2 ++ ('"' :: (v ++ ('"' :: post)))))))
        = ((pre ++ (textKey ++ mid)) ++ ((':' :: mid2) ++ ['"'])) ++ (v ++ ('"' :: post)) := by
      simp [List.append_assoc]
    have hlen : ((pre ++ (textKey ++ mid)) ++ ((':' :: mid2) ++ ['"'])).length = X + 1 := by
      rw [hX]
      simp
      omega
    rw [hshape, List.drop_left' hlen]
  rw [hdropS, show X + 1 + v.length - X - 1 = v.length from by omega, List.take_left]

theorem extract_of_not_found (s : List Char)
    (h : ∀ k, k ≤ s.length → textKey.isPrefixOf (s.drop k) = false) :
    extractTextFromJson s = [] := by
  have hnone : findFrom s textKey 0 = none := by
    unfold findFrom
    rw [List.drop_zero]
    refine findAux_eq_none textKey s 0 ?_
    intro k
    by_cases hk : k ≤ s.length
    · exact h k hk
    · rw [List.drop_eq_nil_of_le (by omega)]
      decide
  unfold extractTextFromJson
  rw [hnone]

/-- C5: the Result Extractor is total; on the empty payload, a payload
whose `"text"` key search fails, or one with no occurrence of the key at
all it returns empty; `"text":` with no value yields empty; a payload
whose first `"text"` occurrence is followed (over colon-free then
quote-free filler) by a quoted value yields exactly that value regardless
of surrounding keys and whitespace. -/
theorem C5_resultExtractor :
    extractTextFromJson [] = []
    ∧ (∀ s : List Char, findFrom s textKey 0 = none → extractTextFromJson s = [])
    ∧ (∀ s : List Char, (∀ k, k ≤ s.length → textKey.isPrefixOf (s.drop k) = false) →
        extractTextFromJson s = [])
    ∧ extractTextFromJson ("\"text\" : \"hello world\"".toList) = "hello world".toList
    ∧ extractTextFromJson ("".toList) = []
    ∧ extractTextFromJson ("\"text\":".toList) = []
    ∧ extractTextFromJson ("\"other\" : \"x\", \"more\" : \"y\"".toList) = []
    ∧ (∀ pre mid mid2 v post : List Char,
        (∀ k, k < pre.length →
          textKey.isPrefixOf ((pre ++ (textKey ++ (mid ++ (':' :: (mid2 ++ ('"' :: (v ++ ('"' :: post)))))))).drop k) = false) →
        ':' ∉ mid → '"' ∉ mid2 → '"' ∉ v →
        extractTextFromJson
          (pre ++ (textKey ++ (mid ++ (':' :: (mid2 ++ ('"' :: (v ++ ('"' :: post)))))))) = v) := by
  refine ⟨rfl, ?_, extract_of_not_found, by decide, rfl, by decide, by decide, extract_wellFormed⟩
  intro s hn
  unfold extractTextFromJson
  rw [hn]

/-- C5 witness: first-occurrence extraction on a concrete payload with
surrounding keys, and key-absent emptiness on a concrete payload. -/
theorem C5_resultExtractor_witness :
    extractTextFromJson ("junk, \"text\" : \"ok\", tail".toList) = "ok".toList
    ∧ extractTextFromJson ("no key here".toList) = [] := by
  constructor
  · exact C5_resultExtractor.2.2.2.2.2.2.2 ("junk, ".toList) (" ".toList) (" ".toList)
      ("ok".toList) (", tail".toList) (by decide) (by decide) (by decide) (by decide)
  · exact C5_resultExtractor.2.2.1 ("no key here".toList) (by decide)

end AudioRecorder
namespace AudioRecorder

theorem wavHeader_expand (n : Nat) :
    wavHeader n =
      82 :: 73 :: 70 :: 70 ::
      ((36 + 2 * n % 4294967296) % 4294967296 % 256) ::
      ((36 + 2 * n % 4294967296) % 4294967296 / 256 % 256) ::
      ((36 + 2 * n % 4294967296) % 4294967296 / 65536 % 256) ::
      ((36 + 2 * n % 4294967296) % 4294967296 / 16777216 % 256) ::
      87 :: 65 :: 86 :: 69 ::
      102 :: 109 :: 116 :: 32 ::
      16 :: 0 :: 0 :: 0 ::
      1 :: 0 :: 1 :: 0 ::
      128 :: 62 :: 0 :: 0 ::
      0 :: 125 :: 0 :: 0 ::
      2 :: 0 :: 16 :: 0 ::
      100 :: 97 :: 116 :: 97 ::
      (2 * n % 4294967296 % 256) ::
      (2 * n % 4294967296 / 256 % 256) ::
      (2 * n % 4294967296 / 65536 % 256) ::
      (2 * n % 4294967296 / 16777216 % 256) :: [] := rfl

theorem samplesBytes_length : ∀ l : List Int, (samplesBytes l).length = 2 * l.length
  | [] => rfl
  | x :: rest => by
      simp [samplesBytes, int16Bytes, u16le, samplesBytes_length rest]
      omega

theorem int16_roundtrip (x : Int) (hlo : -32768 ≤ x) (hhi : x < 32768) :
    bytesToSamples (int16Bytes x) = [x] := by
  unfold int16Bytes u16le bytesToSamples toInt16
  have h1 : (0:Int) ≤ x % 65536 := Int.emod_nonneg x (by norm_num)
  have h2 : x % 65536 < 65536 := Int.emod_lt_of_pos x (by norm_num)
  have h3 : ((x % 65536).toNat : Int) = x % 65536 := Int.toNat_of_nonneg h1
  simp only [bytesToSamples]
  congr 1
  omega

theorem bytesToSamples_samplesBytes : ∀ samples : List Int,
    (∀ x ∈ samples, -32768 ≤ x ∧ x < 32768) →
    bytesToSamples (samplesBytes samples) = samples
  | [], _ => rfl
  | x :: rest, h => by
      have hx := h x (List.mem_cons_self x rest)
      have hr : bytesToSamples (samplesBytes rest) = rest :=
        bytesToSamples_samplesBytes rest fun y hy => h y (List.mem_cons_of_mem x hy)
      have hx2 := int16_roundtrip x hx.1 hx.2
      unfold samplesBytes
      unfold int16Bytes u16le at hx2 ⊢
      rw [List.cons_append, List.cons_append, List.nil_append]
      rw [bytesToSamples]
      rw [bytesToSamples] at hx2
      simp only [bytesToSamples] at hx2
      rw [hr]
      congr 1
      exact (List.cons.injEq _ _ _ _).mp hx2 |>.1

end AudioRecorder
namespace AudioRecorder

theorem u32root (v : Nat) (hv : v < 4294967296) :
    v % 256 + 256 * (v / 256 % 256) + 65536 * (v / 65536 % 256)
      + 16777216 * (v / 16777216 % 256) = v := by
  omega

/-- C7: the WAV byte stream is a 44-byte header whose fields decode to
RIFF/WAVE chunk tags, chunk size `36 + 2N`, a 16-byte PCM fmt sub-chunk
declaring format 1, 1 channel, sample rate 16000, byte rate 32000, block
align 2, 16 bits per sample, and a data sub-chunk of size `2N`, followed
by the raw little-endian sample bytes; decoding the data section returns
the original samples exactly. -/
theorem C7_wavEncoder (samples : List Int)
    (hlen : 36 + 2 * samples.length < 4294967296)
    (hrange : ∀ x ∈ samples, -32768 ≤ x ∧ x < 32768) :
    (wavHeader samples.length).length = 44
    ∧ (saveWAVFile samples).length = 44 + 2 * samples.length
    ∧ (saveWAVFile samples).take 4 = asciiBytes ("RIFF")
    ∧ decodeU32 (saveWAVFile samples) 4 = 36 + 2 * samples.length
    ∧ ((saveWAVFile samples).drop 8).take 4 = asciiBytes ("WAVE")
    ∧ ((saveWAVFile samples).drop 12).take 4 = asciiBytes ("fmt ")
    ∧ decodeU32 (saveWAVFile samples) 16 = 16
    ∧ decodeU16 (saveWAVFile samples) 20 = 1
    ∧ decodeU16 (saveWAVFile samples) 22 = 1
    ∧ decodeU32 (saveWAVFile samples) 24 = 16000
    ∧ decodeU32 (saveWAVFile samples) 28 = 32000
    ∧ decodeU16 (saveWAVFile samples) 32 = 2
    ∧ decodeU16 (saveWAVFile samples) 34 = 16
    ∧ ((saveWAVFile samples).drop 36).take 4 = asciiBytes ("data")
    ∧ decodeU32 (saveWAVFile samples) 40 = 2 * samples.length
    ∧ (saveWAVFile samples).drop 44 = samplesBytes samples
    ∧ bytesToSamples ((saveWAVFile samples).drop 44) = samples := by
  have hs2 : 2 * samples.length % 4294967296 = 2 * samples.length := by omega
  have hck : (36 + 2 * samples.length) % 4294967296 = 36 + 2 * samples.length := by omega
  have hexp : saveWAVFile samples =
      82 :: 73 :: 70 :: 70 ::
      ((36 + 2 * samples.length) % 256) ::
      ((36 + 2 * samples.length) / 256 % 256) ::
      ((36 + 2 * samples.length) / 65536 % 256) ::
      ((36 + 2 * samples.length) / 16777216 % 256) ::
      87 :: 65 :: 86 :: 69 :: 102 :: 109 :: 116 :: 32 ::
      16 :: 0 :: 0 :: 0 :: 1 :: 0 :: 1 :: 0 ::
      128 :: 62 :: 0 :: 0 :: 0 :: 125 :: 0 :: 0 ::
      2 :: 0 :: 16 :: 0 :: 100 :: 97 :: 116 :: 97 ::
      (2 * samples.length % 256) ::
      (2 * samples.length / 256 % 256) ::
      (2 * samples.length / 65536 % 256) ::
      (2 * samples.length / 16777216 % 256) :: samplesBytes samples := by
    unfold saveWAVFile
    rw [wavHeader_expand, hs2, hck]
    simp [List.cons_append]
  have hd44 : (saveWAVFile samples).drop 44 = samplesBytes samples := by
    rw [hexp]
    rfl
  refine ⟨by rw [wavHeader_expand]; rfl, ?_, by rw [hexp]; rfl, ?_, by rw [hexp]; rfl,
    by rw [hexp]; rfl, by rw [hexp]; rfl, by rw [hexp]; rfl, by rw [hexp]; rfl,
    by rw [hexp]; rfl, by rw [hexp]; rfl, by rw [hexp]; rfl, by rw [hexp]; rfl,
    by rw [hexp]; rfl, ?_, hd44, ?_⟩
  · rw [hexp]
    simp [samplesBytes_length]
    omega
  · rw [hexp]
    exact u32root _ (by omega)
  · rw [hexp]
    exact u32root _ (by omega)
  · rw [hd44]
    exact bytesToSamples_samplesBytes samples hrange

/-- C7 witness: a concrete four-sample encode decodes a data-chunk size
of 8 bytes and round-trips the samples, including both int16 extremes. -/
theorem C7_wavEncoder_witness :
    decodeU32 (saveWAVFile [1, -2, 32767, -32768]) 40 = 8
    ∧ bytesToSamples ((saveWAVFile [1, -2, 32767, -32768]).drop 44) = [1, -2, 32767, -32768] := by
  have h := C7_wavEncoder [1, -2, 32767, -32768] (by norm_num) (by decide)
  exact ⟨h.2.2.2.2.2.2.2.2.2.2.2.2.2.2.1, h.2.2.2.2.2.2.2.2.2.2.2.2.2.2.2.2⟩

end AudioRecorder
